import Mathlib

/-!
# Verification of the ExpenseCal core (store, import normalizer, aggregation)

Shallow embedding of the core of the `expense-cal` repository:

* `src/lib/utils/index.ts` — the CSV import normalizer (`parseCSVData`),
  the aggregation engine (`calculateMonthData`, `getMonthRange`) and helpers;
* `src/lib/store/index.ts` — the state store (`addTransaction`,
  `deleteTransaction`, `updateTransaction`, `setCurrentMonth`, `exportData`,
  `importData`, `importCSV`, `recalculateMonthlyData`);
* `src/components/shared/Summary.tsx` — the per-category totals/percentages
  computation of `ExpenseChart`.

Modelling conventions:

* JavaScript numbers are modelled by `ℚ`; `NaN`-producing conversions
  (`Number`, `parseInt`) are modelled by `Option` results (`none` = `NaN`).
  Exotic numeric literal forms accepted by JS `Number` (hexadecimal,
  `Infinity`, …) are outside the model's scope; decimal notation (sign,
  digits, fraction, exponent) is modelled exactly.
* Dates are modelled in UTC.  An ISO-8601 timestamp string (the `date` field
  of a stored transaction, always produced by `Date.prototype.toISOString`)
  is modelled by its parsed calendar value `CalDate`; comparison of `Date`
  objects is modelled by lexicographic comparison of the calendar fields,
  which agrees with epoch-milliseconds comparison on normalized dates.
  `new Date(y, m, d)` (with month/day rollover and the 0–99 → 1900+y year
  rule, and the ±8.64e15 ms validity range) is modelled by `jsMakeDate`
  via civil-calendar arithmetic.
* `Math.random`-based id generation (`generateId`) is modelled by an
  explicit supply of id strings handed to the store operations.
* `JSON.parse`/`JSON.stringify` are modelled at the level of a JSON value
  AST (`Json`); a parse failure is `none`.
* ASCII case conversion models `String.prototype.toLowerCase`; non-ASCII
  case rules are outside the model's scope.
-/

/-- `TransactionType` from `src/lib/types/index.ts`: `'income' | 'expense'`. -/
inductive TransactionType where
  | income
  | expense
deriving DecidableEq, Repr

/-- `Category` from `src/lib/types/index.ts`. -/
structure Category where
  id : String
  name : String
  icon : String
  type : TransactionType
deriving DecidableEq, Repr

/-- A calendar date-time (UTC), standing for an ISO-8601 timestamp string.
`ms` is the number of milliseconds into the day. -/
structure CalDate where
  year : Int
  month : Int
  day : Int
  ms : Int
deriving DecidableEq, Repr

/-- A calendar month, standing for a `"YYYY-MM"` month string. -/
structure Month where
  year : Int
  month : Int
deriving DecidableEq, Repr

/-- `Transaction` from `src/lib/types/index.ts`. -/
structure Transaction where
  id : String
  amount : ℚ
  description : String
  date : CalDate
  categoryId : String
  type : TransactionType
deriving DecidableEq, Repr

/-- `Omit<Transaction, 'id'>`: a transaction draft prior to id assignment. -/
structure TransactionDraft where
  amount : ℚ
  description : String
  date : CalDate
  categoryId : String
  type : TransactionType
deriving DecidableEq, Repr

/-- `{...draft, id}`: attach an id to a draft. -/
def TransactionDraft.withId (d : TransactionDraft) (id : String) : Transaction :=
  { id := id, amount := d.amount, description := d.description, date := d.date,
    categoryId := d.categoryId, type := d.type }

/-- Forget the id of a transaction. -/
def Transaction.toDraft (t : Transaction) : TransactionDraft :=
  { amount := t.amount, description := t.description, date := t.date,
    categoryId := t.categoryId, type := t.type }

/-- `MonthData` from `src/lib/types/index.ts`. -/
structure MonthData where
  income : ℚ
  expenses : ℚ
  balance : ℚ
  transactions : List Transaction
deriving DecidableEq, Repr

/-! ## JavaScript string primitives -/

/-- JS whitespace characters (the ones relevant to `trim` and `\s`). -/
def jsIsSpace (c : Char) : Bool :=
  c = ' ' ∨ c = '\t' ∨ c = '\n' ∨ c = '\r' ∨ c = '\x0b' ∨ c = '\x0c'

/-- `String.prototype.trim`. -/
def jsTrim (s : String) : String :=
  String.mk (((s.toList.dropWhile jsIsSpace).reverse.dropWhile jsIsSpace).reverse)

/-- `String.prototype.toLowerCase` (ASCII). -/
def toLowerStr (s : String) : String :=
  String.mk (s.toList.map Char.toLower)

/-- Split a string at every occurrence of a single separator character,
modelling `String.prototype.split(sep)` for a one-character separator. -/
def splitCharAux (sep : Char) : List Char → List Char → List String
  | [], cur => [String.mk cur.reverse]
  | c :: rest, cur =>
    if c = sep then String.mk cur.reverse :: splitCharAux sep rest []
    else splitCharAux sep rest (c :: cur)

/-- `s.split(sep)` for a one-character separator `sep`. -/
def splitChar (sep : Char) (s : String) : List String :=
  splitCharAux sep s.toList []

/-- `str.replace(/,/g, '')`. -/
def removeCommas (s : String) : String :=
  String.mk (s.toList.filter (fun c => c ≠ ','))

/-- `str.replace(/[^\d.-]/g, '')`: keep only digits, `.` and `-`. -/
def digitsOnly (s : String) : String :=
  String.mk (s.toList.filter (fun c => c.isDigit ∨ c = '.' ∨ c = '-'))

/-- Collapse every maximal run of whitespace into a single `'_'`,
modelling `str.replace(/\s+/g, '_')`.  The boolean records whether the
previous character belonged to a whitespace run. -/
def collapseWsAux : Bool → List Char → List Char
  | _, [] => []
  | prevWs, c :: rest =>
    if jsIsSpace c then
      if prevWs then collapseWsAux true rest
      else '_' :: collapseWsAux true rest
    else c :: collapseWsAux false rest

/-- `str.replace(/\s+/g, '_')` on a string. -/
def wsToUnderscore (s : String) : String :=
  String.mk (collapseWsAux false s.toList)

/-- The numeric value of a list of decimal digit characters. -/
def digitsVal (l : List Char) : Nat :=
  l.foldl (fun n c => n * 10 + (c.toNat - '0'.toNat)) 0

/-- `parseInt(str)` (radix 10): skip leading whitespace, optional sign,
then the maximal run of digits; `none` models `NaN`. -/
def jsParseInt (s : String) : Option Int :=
  let l := s.toList.dropWhile jsIsSpace
  let (sign, l') : Int × List Char :=
    match l with
    | '-' :: rest => (-1, rest)
    | '+' :: rest => (1, rest)
    | rest => (1, rest)
  let digits := l'.takeWhile Char.isDigit
  if digits = [] then none
  else some (sign * digitsVal digits)

/-- `Number(str)` after trimming: decimal notation
`[sign] (digits [. digits*] | . digits) [e/E [sign] digits]`;
`none` models `NaN`.  (Hexadecimal, `Infinity` and other exotic forms
accepted by JS are outside the model's scope.) -/
def parseDecimal (l : List Char) : Option ℚ :=
  let (sign, l1) : ℚ × List Char :=
    match l with
    | '-' :: rest => (-1, rest)
    | '+' :: rest => (1, rest)
    | rest => (1, rest)
  let intDigits := l1.takeWhile Char.isDigit
  let l2 := l1.drop intDigits.length
  let (fracDigits, l3) : List Char × List Char :=
    match l2 with
    | '.' :: rest => (rest.takeWhile Char.isDigit, rest.drop (rest.takeWhile Char.isDigit).length)
    | rest => ([], rest)
  -- the mantissa must contain at least one digit, and `.` alone is invalid
  if intDigits = [] ∧ (fracDigits = [] ∨ l2 = l3) then none
  else
    let mantissa : ℚ :=
      (digitsVal intDigits : ℚ) + (digitsVal fracDigits : ℚ) / ((10 : ℚ) ^ fracDigits.length)
    match l3 with
    | [] => some (sign * mantissa)
    | e :: rest =>
      if e = 'e' ∨ e = 'E' then
        let (esign, r1) : Int × List Char :=
          match rest with
          | '-' :: r => (-1, r)
          | '+' :: r => (1, r)
          | r => (1, r)
        let eDigits := r1.takeWhile Char.isDigit
        if eDigits = [] ∨ r1.drop eDigits.length ≠ [] then none
        else some (sign * mantissa * (10 : ℚ) ^ (esign * (digitsVal eDigits : Int)))
      else none

/-- `Number(str)`: the empty (or all-whitespace) string converts to `0`;
otherwise parse as decimal; `none` models `NaN`. -/
def jsNumber (s : String) : Option ℚ :=
  let t := jsTrim s
  if t = "" then some 0 else parseDecimal t.toList

/-! ## Calendar arithmetic (UTC model of the JS `Date`) -/

/-- Leap year predicate (proleptic Gregorian). -/
def isLeapYear (y : Int) : Bool :=
  (y.emod 4 = 0 ∧ y.emod 100 ≠ 0) ∨ y.emod 400 = 0

/-- Number of days of month `m` (1–12) of year `y`; models the last day of
the month computed by `date-fns` `endOfMonth`. -/
def daysInMonth (y m : Int) : Int :=
  if m = 2 then (if isLeapYear y then 29 else 28)
  else if m = 4 ∨ m = 6 ∨ m = 9 ∨ m = 11 then 30
  else 31

/-- Days since the Unix epoch of the civil date `(y, m, d)` with `m` in 1–12
(a standard civil-calendar conversion). -/
def daysFromCivil (y m d : Int) : Int :=
  let y1 := if m ≤ 2 then y - 1 else y
  let era := y1.fdiv 400
  let yoe := y1 - era * 400
  let mp := (m + 9).emod 12
  let doy := (153 * mp + 2).fdiv 5 + d - 1
  let doe := yoe * 365 + yoe.fdiv 4 - yoe.fdiv 100 + doy
  era * 146097 + doe - 719468

/-- Civil date `(y, m, d)` (with `m` in 1–12) of a count of days since the
Unix epoch (inverse of `daysFromCivil`). -/
def civilFromDays (z : Int) : Int × Int × Int :=
  let z1 := z + 719468
  let era := z1.fdiv 146097
  let doe := z1 - era * 146097
  let yoe := (doe - doe.fdiv 1460 + doe.fdiv 36524 - doe.fdiv 146096).fdiv 365
  let y := yoe + era * 400
  let doy := doe - (365 * yoe + yoe.fdiv 4 - yoe.fdiv 100)
  let mp := (5 * doy + 2).fdiv 153
  let d := doy - (153 * mp + 2).fdiv 5 + 1
  let m := mp + (if mp < 10 then 3 else -9)
  (if m ≤ 2 then y + 1 else y, m, d)

/-- Milliseconds in a day. -/
def msPerDay : Int := 86400000

/-- Epoch milliseconds of a `CalDate` (`Date.prototype.getTime` on the
parsed ISO string). -/
def epochMs (d : CalDate) : Int :=
  daysFromCivil d.year d.month d.day * msPerDay + d.ms

/-- The JS `Date` validity bound: a time value is valid iff its magnitude is
at most 8.64e15 milliseconds. -/
def maxJsMs : Int := 8640000000000000

/-- `new Date(y, m0, d)` with a zero-based month `m0`, in the UTC model:
applies the JS two-digit-year rule (0–99 ↦ 1900+y), month and day rollover,
and the ±8.64e15 ms validity check.  `none` models an invalid date
(`isNaN(date.getTime())`). -/
def jsMakeDate (y m0 d : Int) : Option CalDate :=
  let yFull := if 0 ≤ y ∧ y ≤ 99 then 1900 + y else y
  let yAdj := yFull + m0.fdiv 12
  let mAdj := m0.emod 12 + 1
  let days := daysFromCivil yAdj mAdj 1 + (d - 1)
  if (days * msPerDay).natAbs ≤ maxJsMs.natAbs then
    let (cy, cm, cd) := civilFromDays days
    some ⟨cy, cm, cd, 0⟩
  else none

/-- Comparison of two dates, modelling `<=` on JS `Date` objects (epoch
milliseconds); on normalized calendar dates this is the lexicographic
order on (year, month, day, ms). -/
def dateLe (a b : CalDate) : Prop :=
  a.year < b.year ∨ (a.year = b.year ∧
    (a.month < b.month ∨ (a.month = b.month ∧
      (a.day < b.day ∨ (a.day = b.day ∧ a.ms ≤ b.ms)))))

instance instDecidableDateLe (a b : CalDate) : Decidable (dateLe a b) := by
  unfold dateLe; infer_instance

/-! ## Aggregation engine (`src/lib/utils/index.ts`) -/

/-- `startOfMonth` of the parsed `"yyyy-MM"` month (first instant). -/
def monthStart (m : Month) : CalDate := ⟨m.year, m.month, 1, 0⟩

/-- `endOfMonth` of the parsed `"yyyy-MM"` month (last millisecond). -/
def monthEnd (m : Month) : CalDate :=
  ⟨m.year, m.month, daysInMonth m.year m.month, msPerDay - 1⟩

/-- `transactionDate >= start && transactionDate <= end` in
`calculateMonthData`. -/
def inMonthRange (m : Month) (d : CalDate) : Bool :=
  decide (dateLe (monthStart m) d) && decide (dateLe d (monthEnd m))

/-- `reduce((sum, t) => sum + t.amount, 0)`. -/
def sumAmounts (l : List Transaction) : ℚ :=
  l.foldl (fun s t => s + t.amount) 0

/-- `calculateMonthData` from `src/lib/utils/index.ts`: filter the month's
transactions and total income and expenses. -/
def calculateMonthData (transactions : List Transaction) (m : Month) : MonthData :=
  let monthTransactions := transactions.filter (fun t => inMonthRange m t.date)
  let income := sumAmounts (monthTransactions.filter (fun t => t.type = TransactionType.income))
  let expenses := sumAmounts (monthTransactions.filter (fun t => t.type = TransactionType.expense))
  { income := income, expenses := expenses, balance := income - expenses,
    transactions := monthTransactions }

/-- `new Date(t.date).toISOString().substring(0, 7)`: the `"YYYY-MM"` month
key of a stored date. -/
def monthKeyOf (d : CalDate) : Month := ⟨d.year, d.month⟩

/-! ## CSV import normalizer (`parseCSVData`, `src/lib/utils/index.ts`) -/

/-- Consume an expected literal prefix; `some rest` on success. -/
def expectLit : List Char → List Char → Option (List Char)
  | l, [] => some l
  | c :: rest, p :: ps => if c = p then expectLit rest ps else none
  | [], _ :: _ => none

/-- The regex test `^\d{4}-\d{1,2}-\d{1,2},Income,Allowance ,,\d{2},\d{3}$`
(the "problematic allowance line" shape). -/
def matchAllowanceLine (s : String) : Bool :=
  let l := s.toList
  let (d1, r1) := l.span Char.isDigit
  if d1.length ≠ 4 then false else
  match expectLit r1 ['-'] with
  | none => false
  | some r2 =>
    let (d2, r3) := r2.span Char.isDigit
    if d2.length < 1 ∨ 2 < d2.length then false else
    match expectLit r3 ['-'] with
    | none => false
    | some r4 =>
      let (d3, r5) := r4.span Char.isDigit
      if d3.length < 1 ∨ 2 < d3.length then false else
      match expectLit r5 ",Income,Allowance ,,".toList with
      | none => false
      | some r6 =>
        let (d4, r7) := r6.span Char.isDigit
        if d4.length ≠ 2 then false else
        match expectLit r7 [','] with
        | none => false
        | some r8 =>
          let (d5, r9) := r8.span Char.isDigit
          d5.length = 3 ∧ r9 = []

/-- The capture of `line.match(/,(\d{2},\d{3})$/)`: the line must end with
`,DD,DDD`; the capture is `DD,DDD`. -/
def tailCapture23 (s : String) : Option String :=
  match s.toList.reverse with
  | c1 :: c2 :: c3 :: ',' :: b :: a :: ',' :: _ =>
    if c1.isDigit ∧ c2.isDigit ∧ c3.isDigit ∧ a.isDigit ∧ b.isDigit then
      some (String.mk [a, b, ',', c3, c2, c1])
    else none
  | _ => none

/-- The capture of `line.match(/(\d{1,2},\d{3})$/)`: the line must end with
one or two digits, a comma and three digits; the capture takes two digits
when available (first match with a greedy `\d{1,2}`). -/
def tailCapture123 (s : String) : Option String :=
  match s.toList.reverse with
  | c1 :: c2 :: c3 :: ',' :: b :: rest =>
    if c1.isDigit ∧ c2.isDigit ∧ c3.isDigit ∧ b.isDigit then
      match rest with
      | a :: _ =>
        if a.isDigit then some (String.mk [a, b, ',', c3, c2, c1])
        else some (String.mk [b, ',', c3, c2, c1])
      | [] => some (String.mk [b, ',', c3, c2, c1])
    else none
  | _ => none

/-- The quote-aware field tokenizer of `parseCSVData`: a `"` toggles the
in-quotes state, a `,` outside quotes ends the current field. -/
def splitFieldsAux : List Char → Bool → List Char → List String → List String
  | [], _, cur, acc => acc ++ [String.mk cur.reverse]
  | c :: rest, inQ, cur, acc =>
    if c = '"' then splitFieldsAux rest (!inQ) cur acc
    else if c = ',' ∧ inQ = false then splitFieldsAux rest inQ [] (acc ++ [String.mk cur.reverse])
    else splitFieldsAux rest inQ (c :: cur) acc

/-- Tokenize one CSV line into fields. -/
def splitFields (line : String) : List String :=
  splitFieldsAux line.toList false [] []

/-- `while (fields.length < n) fields.push('')`. -/
def padTo (n : Nat) (fs : List String) : List String :=
  fs ++ List.replicate (n - fs.length) ""

/-- `fields[4] = v` on a list of length at least 4: replace index 4 if it
exists, otherwise append it. -/
def setAt4 (fs : List String) (v : String) : List String :=
  if 4 < fs.length then fs.set 4 v else fs ++ [v]

/-- First repair pass: rewrite the exact malformed allowance line shape
`date,Income,Allowance ,,DD,DDD` into
`date,Income,Allowance ,Allowance,DDDDD` before tokenization. -/
def fixAllowanceLine (line : String) : String :=
  if matchAllowanceLine line then
    match tailCapture23 line with
    | some cap =>
      let fullAmount := removeCommas cap
      let datePart := (splitChar ',' line).getD 0 ""
      datePart ++ ",Income,Allowance ,Allowance," ++ fullAmount
    | none => line
  else line

/-- Second repair pass, after tokenization: for an allowance row whose
original line ends in a comma-grouped amount, pad the fields to four and
force the amount field. -/
def fixAllowanceFields (line : String) (fields : List String) : List String :=
  if 3 ≤ fields.length ∧ fields.getD 1 "" = "Income" ∧ jsTrim (fields.getD 2 "") = "Allowance" then
    match tailCapture123 line with
    | some cap => setAt4 (padTo 4 fields) (removeCommas cap)
    | none => fields
  else fields

/-- The line after the first repair pass (the reassigned `line` variable). -/
def rowLine (line : String) : String := fixAllowanceLine line

/-- The five logical fields of a row: repair, tokenize, repair, pad to 5. -/
def rowFields (line : String) : List String :=
  let l1 := rowLine line
  padTo 5 (fixAllowanceFields l1 (splitFields l1))

/-- Date parsing of a row (the throwing part of the row processing):
split on `-`, `parseInt` each component, build the JS date. -/
def parseRowDate (dateStr : String) : Except String CalDate :=
  let dateParts := splitChar '-' dateStr
  if dateParts.length ≠ 3 then Except.error ("Invalid date format: " ++ dateStr)
  else
    match jsParseInt (dateParts.getD 0 ""), jsParseInt (dateParts.getD 1 ""),
          jsParseInt (dateParts.getD 2 "") with
    | some y, some mo, some d =>
      match jsMakeDate y (mo - 1) d with
      | some dt => Except.ok dt
      | none => Except.error ("Invalid date: " ++ dateStr)
    | _, _, _ => Except.error ("Invalid date components: " ++ dateStr)

/-- The date of a row. -/
def rowDate (line : String) : Except String CalDate :=
  parseRowDate ((rowFields line).getD 0 "")

/-- `typeStr.toLowerCase() === 'income' ? 'income' : 'expense'`. -/
def rowType (line : String) : TransactionType :=
  if toLowerStr ((rowFields line).getD 1 "") = "income" then TransactionType.income
  else TransactionType.expense

/-- `categoryStr.toLowerCase().replace(/\s+/g, '_')`. -/
def rowCategoryDerived (line : String) : String :=
  wsToUnderscore (toLowerStr ((rowFields line).getD 2 ""))

/-- The icon lookup table of `getCategoryIcon`, with the generic fallback. -/
def getCategoryIcon (categoryId : String) : String :=
  if categoryId = "food" then "🍔"
  else if categoryId = "transportation" then "🚌"
  else if categoryId = "entertainment" then "🎮"
  else if categoryId = "shopping" then "🛍️"
  else if categoryId = "utilities" then "💡"
  else if categoryId = "housing" then "🏠"
  else if categoryId = "health" then "💊"
  else if categoryId = "education" then "📚"
  else if categoryId = "gifts" then "🎁"
  else if categoryId = "bills" then "📝"
  else if categoryId = "travel" then "✈️"
  else if categoryId = "clothing" then "👕"
  else if categoryId = "self_care" then "💆"
  else if categoryId = "home" then "🏡"
  else if categoryId = "salary" then "💰"
  else if categoryId = "freelance" then "💻"
  else if categoryId = "investments" then "📈"
  else if categoryId = "allowance" then "💵"
  else if categoryId = "rental" then "🏢"
  else "📦"

/-- The default category id used when the category label is empty. -/
def defaultCategoryId (t : TransactionType) : String :=
  if t = TransactionType.income then "other_income" else "others"

/-- The category id recorded on the row's transaction. -/
def rowCategoryId (line : String) : String :=
  let der := rowCategoryDerived line
  if der = "" then defaultCategoryId (rowType line) else der

/-- `Math.abs` on a (non-`NaN`) number. -/
def jsAbs (q : ℚ) : ℚ := if q < 0 then -q else q

/-- Amount parsing (step without the allowance heuristic): trim, strip
commas, `Math.abs(Number(...))`; on `NaN` retry on the digits-only string;
on `NaN` again use `0`. -/
def rowBaseAmount (line : String) : ℚ :=
  let amountStr := (rowFields line).getD 4 ""
  let cleaned := jsTrim amountStr
  if cleaned = "" then 0
  else
    match jsNumber (removeCommas cleaned) with
    | some q => jsAbs q
    | none =>
      match jsNumber (digitsOnly cleaned) with
      | some q => jsAbs q
      | none => 0

/-- The secondary allowance amount-correction heuristic: for an income row
with derived category id `allowance_` and an amount under 1000, prefer a
larger comma-grouped trailing number of the (repaired) line. -/
def rowFinalAmount (line : String) : ℚ :=
  let amount := rowBaseAmount line
  if rowType line = TransactionType.income ∧ rowCategoryId line = "allowance_" ∧ amount < 1000 then
    match tailCapture123 (rowLine line) with
    | some cap =>
      match jsNumber (removeCommas cap) with
      | some q => if amount < q then q else amount
      | none => amount
    | none => amount
  else amount

/-- The category bookkeeping threaded through the rows: the ids seen so far
in this import (`existingCategoryIds`) and the categories synthesized so
far (`newCategories`). -/
structure RowCtx where
  seen : List String
  newCats : List Category
deriving DecidableEq, Repr

/-- The placeholder transaction emitted by the per-row `catch` handler. -/
def placeholderDraft (now : CalDate) (msg : String) : TransactionDraft :=
  { amount := 0, description := "Error importing: " ++ msg, date := now,
    categoryId := "others", type := TransactionType.expense }

/-- The category effect of a successfully parsed row: synthesize a new
category when the derived id is nonempty and not seen earlier in this
import. -/
def rowNewCtx (ctx : RowCtx) (line : String) : RowCtx :=
  let der := rowCategoryDerived line
  if der ≠ "" ∧ der ∉ ctx.seen then
    ⟨ctx.seen ++ [der],
     ctx.newCats ++ [⟨der, (rowFields line).getD 2 "", getCategoryIcon der, rowType line⟩]⟩
  else ctx

/-- The result of a row whose date parsed. -/
def processRowOk (ctx : RowCtx) (line : String) (date : CalDate) :
    TransactionDraft × RowCtx :=
  ({ amount := rowFinalAmount line, description := (rowFields line).getD 3 "",
     date := date, categoryId := rowCategoryId line, type := rowType line },
   rowNewCtx ctx line)

/-- One row of `parseCSVData`: the `try` body with its `catch` handler.
The only throwing statements of the body are in the date-parsing step,
which precedes the category bookkeeping, so a failed row leaves the
context unchanged. -/
def processLine (now : CalDate) (ctx : RowCtx) (line : String) :
    TransactionDraft × RowCtx :=
  match rowDate line with
  | Except.error e => (placeholderDraft now e, ctx)
  | Except.ok date => processRowOk ctx line date

/-- The data lines of the CSV: split on newlines, drop blank lines, skip
the header row. -/
def csvDataLines (csvData : String) : List String :=
  ((splitChar '\n' csvData).filter (fun l => jsTrim l ≠ "")).drop 1

/-- Process every data line in order, threading the category context. -/
def processAllLines (now : CalDate) : List String → RowCtx → List TransactionDraft × RowCtx
  | [], ctx => ([], ctx)
  | line :: rest, ctx =>
    let (d, ctx') := processLine now ctx line
    let (ds, ctx'') := processAllLines now rest ctx'
    (d :: ds, ctx'')

/-- The final filter
`!isNaN(t.amount) && t.date && !isNaN(new Date(t.date).getTime())`:
in the model the amount is a rational (`NaN` conversions were handled
upstream, so `isNaN(t.amount)` is false), the date is a nonempty ISO
string (truthy), and `getTime` is valid iff the epoch value is inside the
JS range. -/
def validDraft (t : TransactionDraft) : Bool :=
  decide ((epochMs t.date).natAbs ≤ maxJsMs.natAbs)

/-- `parseCSVData` from `src/lib/utils/index.ts`. -/
def parseCSVData (csvData : String) (now : CalDate) :
    List TransactionDraft × List Category :=
  let (drafts, ctx) := processAllLines now (csvDataLines csvData) ⟨[], []⟩
  (drafts.filter validDraft, ctx.newCats)

/-! ## JSON model (`JSON.parse` / `JSON.stringify` at the AST level) -/

/-- A JSON value.  `Json.date` is a JSON string that is an ISO-8601
timestamp, represented by its parsed calendar value (ISO timestamp strings
are in bijection with valid `CalDate`s). -/
inductive Json where
  | null
  | bool (b : Bool)
  | num (q : ℚ)
  | str (s : String)
  | date (d : CalDate)
  | arr (elems : List Json)
  | obj (fields : List (String × Json))

/-- Field lookup on an object literal (first binding wins). -/
def lookupField : List (String × Json) → String → Option Json
  | [], _ => none
  | (k, v) :: rest, key => if k = key then some v else lookupField rest key

/-- `value.field` as in JS: `none` models `undefined` (also for non-object
receivers). -/
def jsonGetField : Json → String → Option Json
  | Json.obj fields, key => lookupField fields key
  | _, _ => none

/-- JS truthiness of a JSON value (`undefined` is handled by `Option`
upstream; arrays and objects are always truthy, an ISO date string is a
nonempty string hence truthy). -/
def jsTruthy : Json → Bool
  | Json.null => false
  | Json.bool b => b
  | Json.num q => decide (q ≠ 0)
  | Json.str s => decide (s ≠ "")
  | Json.date _ => true
  | Json.arr _ => true
  | Json.obj _ => true

/-- The label serialized for a transaction type. -/
def typeLabel : TransactionType → String
  | TransactionType.income => "income"
  | TransactionType.expense => "expense"

/-- Read a transaction type label. -/
def typeOfLabel : String → Option TransactionType
  | "income" => some TransactionType.income
  | "expense" => some TransactionType.expense
  | _ => none

/-- Serialization of a transaction (the export schema of §6). -/
def encodeTransaction (t : Transaction) : Json :=
  Json.obj [("id", Json.str t.id), ("amount", Json.num t.amount),
            ("description", Json.str t.description), ("date", Json.date t.date),
            ("categoryId", Json.str t.categoryId), ("type", Json.str (typeLabel t.type))]

/-- Serialization of a category. -/
def encodeCategory (c : Category) : Json :=
  Json.obj [("id", Json.str c.id), ("name", Json.str c.name),
            ("icon", Json.str c.icon), ("type", Json.str (typeLabel c.type))]

/-- Read a transaction object of the export schema back into the typed data
model.  (The JS code performs no per-element validation — it stores the raw
parsed objects; values outside the export schema are outside the scope of
the typed model.) -/
def decodeTransaction (j : Json) : Option Transaction :=
  match jsonGetField j "id", jsonGetField j "amount", jsonGetField j "description",
        jsonGetField j "date", jsonGetField j "categoryId", jsonGetField j "type" with
  | some (Json.str id), some (Json.num amount), some (Json.str description),
    some (Json.date date), some (Json.str categoryId), some (Json.str ty) =>
    (typeOfLabel ty).map (fun t =>
      { id := id, amount := amount, description := description, date := date,
        categoryId := categoryId, type := t })
  | _, _, _, _, _, _ => none

/-- Read a category object back into the typed data model. -/
def decodeCategory (j : Json) : Option Category :=
  match jsonGetField j "id", jsonGetField j "name", jsonGetField j "icon",
        jsonGetField j "type" with
  | some (Json.str id), some (Json.str name), some (Json.str icon), some (Json.str ty) =>
    (typeOfLabel ty).map (fun t => { id := id, name := name, icon := icon, type := t })
  | _, _, _, _ => none

/-- Decode a list of transaction objects. -/
def decodeTransactionList : List Json → Option (List Transaction)
  | [] => some []
  | j :: rest =>
    match decodeTransaction j, decodeTransactionList rest with
    | some t, some ts => some (t :: ts)
    | _, _ => none

/-- Decode a list of category objects. -/
def decodeCategoryList : List Json → Option (List Category)
  | [] => some []
  | j :: rest =>
    match decodeCategory j, decodeCategoryList rest with
    | some c, some cs => some (c :: cs)
    | _, _ => none

/-! ## State store (`src/lib/store/index.ts`) -/

/-- The persistent part of `AppState`. -/
structure StoreState where
  currentMonth : Month
  categories : List Category
  transactions : List Transaction
  monthlyData : List (Month × MonthData)
deriving DecidableEq, Repr

/-- `Set.prototype.add` with insertion order (JS `Set` iterates in
insertion order). -/
def insertUniq (xs : List Month) (m : Month) : List Month :=
  if m ∈ xs then xs else xs ++ [m]

/-- The month set collected by `recalculateMonthlyData`: the distinct
months of the transactions in order of first appearance, then the current
month. -/
def collectMonths (transactions : List Transaction) (currentMonth : Month) : List Month :=
  insertUniq (transactions.foldl (fun acc t => insertUniq acc (monthKeyOf t.date)) [])
    currentMonth

/-- `recalculateMonthlyData` from `src/lib/store/index.ts`: one aggregate
per collected month, as a keyed record. -/
def recalculateMonthlyData (transactions : List Transaction) (currentMonth : Month) :
    List (Month × MonthData) :=
  (collectMonths transactions currentMonth).map
    (fun m => (m, calculateMonthData transactions m))

/-- `monthlyData[month]` access on the keyed record. -/
def lookupMonth (l : List (Month × MonthData)) (m : Month) : Option MonthData :=
  (l.find? (fun p => decide (p.1 = m))).map Prod.snd

/-- `addTransaction`: the generated id is supplied explicitly (`generateId`
draws from `Math.random`, which guarantees nothing about freshness). -/
def addTransaction (transaction : TransactionDraft) (newId : String) (st : StoreState) :
    StoreState :=
  let transactions := st.transactions ++ [transaction.withId newId]
  { st with transactions := transactions,
            monthlyData := recalculateMonthlyData transactions st.currentMonth }

/-- `deleteTransaction`. -/
def deleteTransaction (id : String) (st : StoreState) : StoreState :=
  let transactions := st.transactions.filter (fun t => t.id ≠ id)
  { st with transactions := transactions,
            monthlyData := recalculateMonthlyData transactions st.currentMonth }

/-- `Partial<Omit<Transaction, 'id'>>`. -/
structure TransactionPatch where
  amount : Option ℚ := none
  description : Option String := none
  date : Option CalDate := none
  categoryId : Option String := none
  type : Option TransactionType := none
deriving DecidableEq, Repr

/-- `{ ...t, ...updatedFields }` (the id is never overwritten). -/
def applyPatch (t : Transaction) (p : TransactionPatch) : Transaction :=
  { id := t.id, amount := p.amount.getD t.amount,
    description := p.description.getD t.description, date := p.date.getD t.date,
    categoryId := p.categoryId.getD t.categoryId, type := p.type.getD t.type }

/-- `updateTransaction`. -/
def updateTransaction (id : String) (updatedFields : TransactionPatch) (st : StoreState) :
    StoreState :=
  let transactions := st.transactions.map (fun t => if t.id = id then applyPatch t updatedFields else t)
  { st with transactions := transactions,
            monthlyData := recalculateMonthlyData transactions st.currentMonth }

/-- `setCurrentMonth`. -/
def setCurrentMonth (month : Month) (st : StoreState) : StoreState :=
  { st with currentMonth := month,
            monthlyData := recalculateMonthlyData st.transactions month }

/-- `exportData`: `JSON.stringify({ transactions, categories })`, at the
JSON AST level. -/
def exportData (st : StoreState) : Json :=
  Json.obj [("transactions", Json.arr (st.transactions.map encodeTransaction)),
            ("categories", Json.arr (st.categories.map encodeCategory))]

/-- The success/message record returned by `importCSV` (`importData` has
return type `void` and returns no such record — modelled as `none`). -/
structure ImportResult where
  success : Bool
  message : String
deriving DecidableEq, Repr

/-- `importData` from `src/lib/store/index.ts`.  The input is the result of
`JSON.parse` (`none` models a parse failure).  The guard
`!parsedData.transactions || !Array.isArray(parsedData.transactions)`
rejects exactly the inputs whose `transactions` field is not an array
(arrays are always truthy, every non-array fails `Array.isArray`); any
failure is caught and logged, the state is left untouched.  The source
function returns `void` on every path, so the returned caller-visible
result is always `none`.  Parsed elements outside the export schema
(stored unvalidated by the JS code) are outside the scope of the typed
model. -/
def importData (input : Option Json) (st : StoreState) : StoreState × Option ImportResult :=
  match input with
  | none => (st, none)
  | some parsedData =>
    match jsonGetField parsedData "transactions" with
    | some (Json.arr ts) =>
      (match decodeTransactionList ts with
       | none => (st, none)
       | some transactions =>
         let cField := jsonGetField parsedData "categories"
         let categories :=
           match cField with
           | some cv =>
             if jsTruthy cv then
               match cv with
               | Json.arr cs => (decodeCategoryList cs).getD st.categories
               | _ => st.categories
             else st.categories
           | none => st.categories
         ({ st with transactions := transactions, categories := categories,
                    monthlyData := recalculateMonthlyData transactions st.currentMonth },
          none))
    | _ => (st, none)

/-- `newTransactions.map(t => ({...t, id: generateId()}))` with the id
supply `gen` (successive draws of `generateId`). -/
def assignIds (gen : Nat → String) : Nat → List TransactionDraft → List Transaction
  | _, [] => []
  | k, d :: rest => d.withId (gen k) :: assignIds gen (k + 1) rest

/-- `importCSV` from `src/lib/store/index.ts`.  `parseCSVData` is total in
the model, so the `catch` branch of the source is unreachable and the
result always carries `success: true`. -/
def importCSV (csvData : String) (now : CalDate) (gen : Nat → String) (st : StoreState) :
    StoreState × ImportResult :=
  let parsed := parseCSVData csvData now
  let newTransactions := parsed.1
  let newCategories := parsed.2
  let transactionsWithIds := assignIds gen 0 newTransactions
  let allTransactions := st.transactions ++ transactionsWithIds
  let existingCategoryIds := st.categories.map (fun c => c.id)
  let categoriesToAdd := newCategories.filter (fun c => c.id ∉ existingCategoryIds)
  let allCategories := st.categories ++ categoriesToAdd
  ({ st with transactions := allTransactions, categories := allCategories,
             monthlyData := recalculateMonthlyData allTransactions st.currentMonth },
   { success := true,
     message := "Imported " ++ toString newTransactions.length ++ " transactions and " ++
                toString newCategories.length ++ " new categories." })

/-! ## Category breakdown (`ExpenseChart`, `src/components/shared/Summary.tsx`) -/

/-- `totals[categoryId] = (totals[categoryId] || 0) + amount` on a keyed
record with insertion order. -/
def bumpTotal : List (String × ℚ) → String → ℚ → List (String × ℚ)
  | [], c, a => [(c, a)]
  | (c', v) :: rest, c, a =>
    if c' = c then (c', v + a) :: rest else (c', v) :: bumpTotal rest c a

/-- The per-category totals of the transactions of the given kind. -/
def categoryTotals (transactions : List Transaction) (k : TransactionType) :
    List (String × ℚ) :=
  (transactions.filter (fun t => t.type = k)).foldl
    (fun acc t => bumpTotal acc t.categoryId t.amount) []

/-- Sum of the values of a keyed record. -/
def sumValues (l : List (String × ℚ)) : ℚ :=
  l.foldl (fun s p => s + p.2) 0

/-- `percentages[c] = totalAmount > 0 ? amount / totalAmount * 100 : 0`
over the entries of the totals record. -/
def categoryPercentages (totals : List (String × ℚ)) (totalAmount : ℚ) :
    List (String × ℚ) :=
  totals.map (fun p => (p.1, if 0 < totalAmount then p.2 / totalAmount * 100 else 0))

/-- `viewType === 'expense' ? currentMonthData.expenses :
currentMonthData.income`: the month total used for the percentages. -/
def breakdownTotal (md : MonthData) (k : TransactionType) : ℚ :=
  match k with
  | TransactionType.expense => md.expenses
  | TransactionType.income => md.income

/-- The totals and percentages computed by `ExpenseChart` for a month's
data and a view type: totals over the month's transactions of that kind,
percentages against the month's total for that kind. -/
def categoryBreakdown (md : MonthData) (k : TransactionType) :
    List (String × ℚ) × List (String × ℚ) :=
  let totals := categoryTotals md.transactions k
  (totals, categoryPercentages totals (breakdownTotal md k))

/-! ## Concrete example inputs used by counterexamples and witnesses -/

/-- An input to `importData` on which the import is rejected: the text did
not parse, or the parsed value has no array under `transactions`. -/
def rejectedJsonInput (input : Option Json) : Prop :=
  input = none ∨ ∃ p, input = some p ∧ ∀ l, jsonGetField p "transactions" ≠ some (Json.arr l)

/-- A small concrete store state. -/
def exSt3 : StoreState :=
  { currentMonth := ⟨2024, 3⟩,
    categories := [⟨"food", "Food", "🍔", TransactionType.expense⟩],
    transactions := [⟨"t0", 7, "lunch", ⟨2024, 3, 2, 0⟩, "food", TransactionType.expense⟩],
    monthlyData := [] }

/-- The import-time timestamp used in the concrete examples. -/
def exNow : CalDate := ⟨2025, 1, 1, 0⟩

/-- A CSV with one unparseable-date row and one valid row. -/
def exCsvC2 : String :=
  "Date,Income/Expenses,Category,Memo,Amount\nnot-a-date,Income,Salary,,100\n2024-3-15,Income,Salary,,5000"

/-- A concrete id supply (all values distinct). -/
def exGen (n : Nat) : String := String.mk ('t' :: List.replicate n 'i')

/-- A concrete transaction draft. -/
def exDraft : TransactionDraft :=
  { amount := 5, description := "", date := ⟨2024, 3, 2, 0⟩,
    categoryId := "food", type := TransactionType.expense }

/-- The empty store state. -/
def exSt0 : StoreState := { currentMonth := ⟨2024, 3⟩, categories := [], transactions := [], monthlyData := [] }

/-- A CSV whose only row uses the already-known category label `Food`. -/
def exCsvC10 : String := "Date,Income/Expenses,Category,Memo,Amount\n2024-3-15,Expense,Food,Lunch,12.50"

/-- The cache-consistency invariant of the spec (§3, §4.3): the aggregate
cache has exactly one entry per month that contains a transaction or is
the currently selected month, and each entry equals the aggregation
engine's result for the full transaction list and that month. -/
def cacheConsistent (st : StoreState) : Prop :=
  (st.monthlyData.map Prod.fst).Nodup ∧
  (∀ m : Month, m ∈ st.monthlyData.map Prod.fst ↔
      ((∃ t ∈ st.transactions, monthKeyOf t.date = m) ∨ m = st.currentMonth)) ∧
  (∀ p ∈ st.monthlyData, p.2 = calculateMonthData st.transactions p.1)

/-! ## Theorems -/

theorem decodeTransaction_encode (t : Transaction) :
    decodeTransaction (encodeTransaction t) = some t := by
  rcases t with ⟨id, amount, description, date, categoryId, ty⟩
  cases ty <;> rfl

theorem decodeCategory_encode (c : Category) :
    decodeCategory (encodeCategory c) = some c := by
  rcases c with ⟨id, name, icon, ty⟩
  cases ty <;> rfl

theorem decodeTransactionList_encode (ts : List Transaction) :
    decodeTransactionList (ts.map encodeTransaction) = some ts := by
  induction ts with
  | nil => rfl
  | cons t rest ih =>
    simp [decodeTransactionList, decodeTransaction_encode, ih]

theorem decodeCategoryList_encode (cs : List Category) :
    decodeCategoryList (cs.map encodeCategory) = some cs := by
  induction cs with
  | nil => rfl
  | cons c rest ih =>
    simp [decodeCategoryList, decodeCategory_encode, ih]

/-- C1.  For every store state, importing the output of `exportData` back
via `importData` succeeds and reproduces an observably identical
transaction list and category list (here: the very same lists) as the
state that was exported, whatever state the import is applied to. -/
theorem C1_json_roundtrip (src dst : StoreState) :
    (importData (some (exportData src)) dst).1.transactions = src.transactions ∧
    (importData (some (exportData src)) dst).1.categories = src.categories := by
  have ht := decodeTransactionList_encode src.transactions
  have hc := decodeCategoryList_encode src.categories
  constructor <;>
    simp [importData, exportData, jsonGetField, lookupField, ht, hc, jsTruthy]


/-- C3 (amended).  When the JSON import text fails to parse or the parsed
value lacks a transactions list, the import is rejected: the store state
(transactions, categories, currentMonth, monthlyData) is returned exactly
as it was — no partial write — and the failure is contained (the source
catches it); but no boolean/message result is reported to the caller:
`importData` returns `void` on every path (second component `none`).
Only `importCSV` returns a success/message record. -/
theorem C3_reject_leaves_state (input : Option Json) (st : StoreState)
    (h : rejectedJsonInput input) : importData input st = (st, none) := by
  rcases h with rfl | ⟨p, rfl, hno⟩
  · rfl
  · cases hv : jsonGetField p "transactions" with
    | none => simp [importData, hv]
    | some v =>
      cases v with
      | arr l => exact absurd hv (hno l)
      | null => simp [importData, hv]
      | bool b => simp [importData, hv]
      | num q => simp [importData, hv]
      | str s => simp [importData, hv]
      | date d => simp [importData, hv]
      | obj fs => simp [importData, hv]

/-- C3 (counterexample to the claim as stated).  On a parsed value with no
transactions list, the import leaves the state untouched but returns no
boolean/message result at all (`none`, modelling the `void` return of the
source): the failure is *not* reported to the caller as a boolean/message
result. -/
theorem C3_no_result_reported :
    importData (some (Json.obj [])) exSt3 = (exSt3, none) := by
  rfl

/-- C3 witness. -/
theorem C3_reject_leaves_state_witness :
    importData (some (Json.obj [("other", Json.num 1)])) exSt3 = (exSt3, none) ∧
    importData none exSt3 = (exSt3, none) :=
  ⟨C3_reject_leaves_state (some (Json.obj [("other", Json.num 1)])) exSt3
     (Or.inr ⟨Json.obj [("other", Json.num 1)], rfl,
        fun l h => by simp [jsonGetField, lookupField] at h⟩),
   C3_reject_leaves_state none exSt3 (Or.inl rfl)⟩

/-- C2 (amended).  A row whose date fails to parse produces the placeholder
transaction (amount 0, error-describing description), and that placeholder
is *retained* by the final filter whenever the import-time timestamp is a
valid date — its date is `new Date()`, not the unparseable row date — so
the import returns it along with the remaining valid rows. -/
theorem C2_placeholder_retained (now : CalDate) (ctx : RowCtx) (line : String) (e : String)
    (h : rowDate line = Except.error e) :
    processLine now ctx line = (placeholderDraft now e, ctx) ∧
    (placeholderDraft now e).amount = 0 ∧
    ((epochMs now).natAbs ≤ maxJsMs.natAbs → validDraft (placeholderDraft now e) = true) := by
  refine ⟨by simp [processLine, h], rfl, fun h2 => ?_⟩
  simpa [validDraft, placeholderDraft] using h2

set_option maxHeartbeats 2000000 in
unseal Rat.mul Rat.add Rat.sub Rat.inv in
/-- C2 (counterexample to the claim as stated).  The placeholder produced
for the row `not-a-date,Income,Salary,,100` (amount 0, error-describing
description) is NOT dropped from the final returned list: its date is the
import-time timestamp, which is valid, so the returned transaction list
contains the placeholder followed by the remaining valid row. -/
theorem C2_placeholder_not_dropped :
    parseCSVData exCsvC2 exNow =
      ([{ amount := 0, description := "Error importing: Invalid date components: not-a-date",
          date := exNow, categoryId := "others", type := TransactionType.expense },
        { amount := 5000, description := "", date := ⟨2024, 3, 15, 0⟩,
          categoryId := "salary", type := TransactionType.income }],
       [{ id := "salary", name := "Salary", icon := "💰", type := TransactionType.income }]) := by
  decide

/-- C2 witness. -/
theorem C2_placeholder_retained_witness :
    processLine exNow ⟨[], []⟩ "not-a-date,Income,Salary,,100" =
      (placeholderDraft exNow "Invalid date components: not-a-date", ⟨[], []⟩) ∧
    validDraft (placeholderDraft exNow "Invalid date components: not-a-date") = true :=
  ⟨(C2_placeholder_retained exNow ⟨[], []⟩ "not-a-date,Income,Salary,,100"
      "Invalid date components: not-a-date" (by rfl)).1,
   (C2_placeholder_retained exNow ⟨[], []⟩ "not-a-date,Income,Salary,,100"
      "Invalid date components: not-a-date" (by rfl)).2.2 (by decide)⟩

/-- C5.  The normalizer never raises: every row yields exactly one draft
(the batch always returns, one output per data line), and any row whose
processing fails is replaced by a placeholder draft with expense kind,
zero amount, category id `others`, a description containing the failure
reason and the current time as its timestamp, leaving the category
bookkeeping untouched. -/
theorem C5_never_raises (now : CalDate) :
    (∀ ctx line,
      (∃ e, rowDate line = Except.error e ∧
        (processLine now ctx line).1.amount = 0 ∧
        (processLine now ctx line).1.type = TransactionType.expense ∧
        (processLine now ctx line).1.categoryId = "others" ∧
        (processLine now ctx line).1.description = "Error importing: " ++ e ∧
        (processLine now ctx line).1.date = now ∧
        (processLine now ctx line).2 = ctx) ∨
      (∃ d, rowDate line = Except.ok d ∧ processLine now ctx line = processRowOk ctx line d)) ∧
    (∀ lines ctx, (processAllLines now lines ctx).1.length = lines.length) := by
  constructor
  · intro ctx line
    cases h : rowDate line with
    | error e =>
      left
      refine ⟨e, rfl, ?_⟩
      have hp : processLine now ctx line = (placeholderDraft now e, ctx) := by
        simp [processLine, h]
      rw [hp]
      exact ⟨rfl, rfl, rfl, rfl, rfl, rfl⟩
    | ok d =>
      right
      refine ⟨d, rfl, ?_⟩
      simp [processLine, h]
  · intro lines
    induction lines with
    | nil => intro ctx; rfl
    | cons l rest ih =>
      intro ctx
      simp [processAllLines, ih]

theorem mem_insertUniq (xs : List Month) (x m : Month) :
    m ∈ insertUniq xs x ↔ m ∈ xs ∨ m = x := by
  unfold insertUniq
  by_cases h : x ∈ xs
  · simp only [if_pos h, List.mem_append]
    constructor
    · exact Or.inl
    · rintro (hm | rfl)
      · exact hm
      · exact h
  · simp [if_neg h, List.mem_append]

theorem nodup_insertUniq (xs : List Month) (x : Month) (h : xs.Nodup) :
    (insertUniq xs x).Nodup := by
  by_cases hx : x ∈ xs
  · simpa [insertUniq, hx] using h
  · simp [insertUniq, hx, List.nodup_append, h]

theorem mem_foldl_insertUniq (txs : List Transaction) (acc : List Month) (m : Month) :
    m ∈ txs.foldl (fun a t => insertUniq a (monthKeyOf t.date)) acc ↔
      m ∈ acc ∨ ∃ t ∈ txs, monthKeyOf t.date = m := by
  induction txs generalizing acc with
  | nil => simp
  | cons t rest ih =>
    rw [List.foldl_cons, ih, mem_insertUniq]
    constructor
    · rintro ((hm | rfl) | ⟨u, hu, hm⟩)
      · exact Or.inl hm
      · exact Or.inr ⟨t, List.mem_cons_self t rest, rfl⟩
      · exact Or.inr ⟨u, List.mem_cons_of_mem _ hu, hm⟩
    · rintro (hm | ⟨u, hu, hm⟩)
      · exact Or.inl (Or.inl hm)
      · rcases List.mem_cons.mp hu with rfl | hu2
        · exact Or.inl (Or.inr hm.symm)
        · exact Or.inr ⟨u, hu2, hm⟩

theorem nodup_foldl_insertUniq (txs : List Transaction) (acc : List Month) (h : acc.Nodup) :
    (txs.foldl (fun a t => insertUniq a (monthKeyOf t.date)) acc).Nodup := by
  induction txs generalizing acc with
  | nil => simpa
  | cons t rest ih => exact ih _ (nodup_insertUniq _ _ h)

theorem mem_collectMonths (txs : List Transaction) (cur m : Month) :
    m ∈ collectMonths txs cur ↔ (∃ t ∈ txs, monthKeyOf t.date = m) ∨ m = cur := by
  unfold collectMonths
  rw [mem_insertUniq, mem_foldl_insertUniq]
  simp

theorem nodup_collectMonths (txs : List Transaction) (cur : Month) :
    (collectMonths txs cur).Nodup :=
  nodup_insertUniq _ _ (nodup_foldl_insertUniq _ _ List.nodup_nil)

theorem recalc_keys (txs : List Transaction) (cur : Month) :
    (recalculateMonthlyData txs cur).map Prod.fst = collectMonths txs cur := by
  unfold recalculateMonthlyData
  rw [List.map_map]
  have hcomp : (Prod.fst ∘ fun m : Month => (m, calculateMonthData txs m)) = id := rfl
  rw [hcomp, List.map_id]

theorem recalc_entries (txs : List Transaction) (cur : Month) :
    ∀ p ∈ recalculateMonthlyData txs cur, p.2 = calculateMonthData txs p.1 := by
  intro p hp
  rcases List.mem_map.mp hp with ⟨m, hm, rfl⟩
  rfl

theorem lookupMonth_map (f : Month → MonthData) (l : List Month) (m : Month) (h : m ∈ l) :
    lookupMonth (l.map (fun x => (x, f x))) m = some (f m) := by
  induction l with
  | nil => cases h
  | cons x rest ih =>
    by_cases hx : x = m
    · subst hx
      simp [lookupMonth, List.find?]
    · rcases List.mem_cons.mp h with rfl | hm
      · exact absurd rfl hx
      · simp only [lookupMonth, List.map_cons, List.find?, decide_eq_true_eq] at ih ⊢
        rw [decide_eq_false hx]
        exact ih hm

theorem lookupMonth_recalc (txs : List Transaction) (cur m : Month)
    (h : m ∈ collectMonths txs cur) :
    lookupMonth (recalculateMonthlyData txs cur) m = some (calculateMonthData txs m) :=
  lookupMonth_map (fun x => calculateMonthData txs x) (collectMonths txs cur) m h

theorem monthKey_of_inRange (m : Month) (d : CalDate) (h : inMonthRange m d = true) :
    monthKeyOf d = m := by
  unfold inMonthRange at h
  rw [Bool.and_eq_true, decide_eq_true_eq, decide_eq_true_eq] at h
  obtain ⟨h1, h2⟩ := h
  simp only [dateLe, monthStart, monthEnd] at h1 h2
  rcases m with ⟨my, mm⟩
  rcases d with ⟨dy, dm, dd, dms⟩
  simp only [monthKeyOf, Month.mk.injEq]
  simp only at h1 h2
  omega

theorem calculateMonthData_empty (txs : List Transaction) (m : Month)
    (h : ∀ t ∈ txs, monthKeyOf t.date ≠ m) :
    calculateMonthData txs m = ⟨0, 0, 0, []⟩ := by
  have hf : txs.filter (fun t => inMonthRange m t.date) = [] := by
    apply List.filter_eq_nil_iff.mpr
    intro t ht hc
    exact h t ht (monthKey_of_inRange _ _ hc)
  simp [calculateMonthData, hf, sumAmounts]

theorem cacheConsistent_mk (cur : Month) (cats : List Category) (txs : List Transaction) :
    cacheConsistent ⟨cur, cats, txs, recalculateMonthlyData txs cur⟩ := by
  refine ⟨?_, ?_, ?_⟩
  · show ((recalculateMonthlyData txs cur).map Prod.fst).Nodup
    rw [recalc_keys]
    exact nodup_collectMonths txs cur
  · intro m
    show m ∈ (recalculateMonthlyData txs cur).map Prod.fst ↔ _
    rw [recalc_keys, mem_collectMonths]
  · exact recalc_entries txs cur

theorem cacheConsistent_of_eq (st : StoreState)
    (h : st.monthlyData = recalculateMonthlyData st.transactions st.currentMonth) :
    cacheConsistent st := by
  rcases st with ⟨cur, cats, txs, md⟩
  simp only at h
  subst h
  exact cacheConsistent_mk cur cats txs

/-- C4.  After every store mutation (add, update, delete, month selection,
JSON import, CSV import) the aggregate cache has exactly one entry per
month that contains a transaction or is the currently selected month, each
entry equal to the aggregation engine's result for the full transaction
list and that month; and selecting a month with zero transactions yields a
cached all-zero aggregate with an empty transaction list, retained even
though no transaction references that month.  (For the JSON import, a
rejected import leaves the state — assumed consistent — untouched.) -/
theorem C4_cache_recomputed :
    (∀ d id st, cacheConsistent (addTransaction d id st)) ∧
    (∀ id st, cacheConsistent (deleteTransaction id st)) ∧
    (∀ id p st, cacheConsistent (updateTransaction id p st)) ∧
    (∀ m st, cacheConsistent (setCurrentMonth m st)) ∧
    (∀ input st, cacheConsistent st → cacheConsistent (importData input st).1) ∧
    (∀ csv now gen st, cacheConsistent (importCSV csv now gen st).1) ∧
    (∀ m st, (∀ t ∈ st.transactions, monthKeyOf t.date ≠ m) →
      lookupMonth (setCurrentMonth m st).monthlyData m = some ⟨0, 0, 0, []⟩) := by
  refine ⟨?_, ?_, ?_, ?_, ?_, ?_, ?_⟩
  · intro d id st
    exact cacheConsistent_of_eq _ rfl
  · intro id st
    exact cacheConsistent_of_eq _ rfl
  · intro id p st
    exact cacheConsistent_of_eq _ rfl
  · intro m st
    exact cacheConsistent_of_eq _ rfl
  · intro input st hst
    match input with
    | none => exact hst
    | some p =>
      cases hv : jsonGetField p "transactions" with
      | none => simpa [importData, hv] using hst
      | some v =>
        cases v with
        | arr l =>
          cases hd : decodeTransactionList l with
          | none => simpa [importData, hv, hd] using hst
          | some ts =>
            apply cacheConsistent_of_eq
            simp [importData, hv, hd]
        | null => simpa [importData, hv] using hst
        | bool b => simpa [importData, hv] using hst
        | num q => simpa [importData, hv] using hst
        | str s => simpa [importData, hv] using hst
        | date dd => simpa [importData, hv] using hst
        | obj fs => simpa [importData, hv] using hst
  · intro csv now gen st
    exact cacheConsistent_of_eq _ rfl
  · intro m st h
    have hm : m ∈ collectMonths st.transactions m :=
      (mem_collectMonths st.transactions m m).mpr (Or.inr rfl)
    show lookupMonth (recalculateMonthlyData st.transactions m) m = some ⟨0, 0, 0, []⟩
    rw [lookupMonth_recalc st.transactions m m hm, calculateMonthData_empty st.transactions m h]

/-- C4 witness. -/
theorem C4_cache_recomputed_witness :
    cacheConsistent (setCurrentMonth ⟨2024, 4⟩ exSt3) ∧
    lookupMonth (setCurrentMonth ⟨2024, 4⟩ exSt3).monthlyData ⟨2024, 4⟩ = some ⟨0, 0, 0, []⟩ ∧
    cacheConsistent (importData none (setCurrentMonth ⟨2024, 4⟩ exSt3)).1 :=
  ⟨C4_cache_recomputed.2.2.2.1 ⟨2024, 4⟩ exSt3,
   C4_cache_recomputed.2.2.2.2.2.2 ⟨2024, 4⟩ exSt3 (by decide),
   C4_cache_recomputed.2.2.2.2.1 none (setCurrentMonth ⟨2024, 4⟩ exSt3)
     (C4_cache_recomputed.2.2.2.1 ⟨2024, 4⟩ exSt3)⟩

theorem assignIds_length (gen : Nat → String) :
    ∀ (ds : List TransactionDraft) (k : Nat), (assignIds gen k ds).length = ds.length := by
  intro ds
  induction ds with
  | nil => intro k; rfl
  | cons d rest ih => intro k; simp [assignIds, ih (k + 1)]

theorem assignIds_toDraft (gen : Nat → String) :
    ∀ (ds : List TransactionDraft) (k : Nat),
      (assignIds gen k ds).map Transaction.toDraft = ds := by
  intro ds
  induction ds with
  | nil => intro k; rfl
  | cons d rest ih =>
    intro k
    simp [assignIds, ih (k + 1), Transaction.toDraft, TransactionDraft.withId]

theorem assignIds_ids (gen : Nat → String) :
    ∀ (ds : List TransactionDraft) (k : Nat),
      (assignIds gen k ds).map (fun t => t.id) =
        (List.range ds.length).map (fun i => gen (k + i)) := by
  intro ds
  induction ds with
  | nil => intro k; rfl
  | cons d rest ih =>
    intro k
    rw [List.length_cons, List.range_succ_eq_map]
    simp only [assignIds, List.map_cons, List.map_map, TransactionDraft.withId, Nat.add_zero]
    refine congrArg (fun l => gen k :: l) ?_
    rw [ih (k + 1)]
    refine List.map_congr_left (fun i _ => ?_)
    show gen (k + 1 + i) = gen (k + Nat.succ i)
    exact congrArg gen (by omega)

/-- C7.  `importCSV` appends the parsed drafts — each given an id drawn in
order from the id supply — to the existing transaction list, leaving every
previously existing transaction present and unchanged; it merges the newly
discovered categories, skipping any id that collides with an existing one;
and it returns a success flag with the human-readable summary count. -/
theorem C7_importCSV_frame (csv : String) (now : CalDate) (gen : Nat → String) (st : StoreState) :
    (∀ t ∈ st.transactions, t ∈ (importCSV csv now gen st).1.transactions) ∧
    (importCSV csv now gen st).1.transactions.take st.transactions.length = st.transactions ∧
    (importCSV csv now gen st).1.transactions.length =
      st.transactions.length + (parseCSVData csv now).1.length ∧
    ((importCSV csv now gen st).1.transactions.drop st.transactions.length).map
      Transaction.toDraft = (parseCSVData csv now).1 ∧
    ((importCSV csv now gen st).1.transactions.drop st.transactions.length).map
      (fun t => t.id) = (List.range (parseCSVData csv now).1.length).map gen ∧
    (∀ c ∈ st.categories, c ∈ (importCSV csv now gen st).1.categories) ∧
    (∀ c ∈ (importCSV csv now gen st).1.categories,
      c ∈ st.categories ∨
        (c ∈ (parseCSVData csv now).2 ∧ c.id ∉ st.categories.map (fun c2 => c2.id))) ∧
    (importCSV csv now gen st).2.success = true ∧
    (importCSV csv now gen st).2.message =
      "Imported " ++ toString (parseCSVData csv now).1.length ++ " transactions and " ++
        toString (parseCSVData csv now).2.length ++ " new categories." := by
  have htx : (importCSV csv now gen st).1.transactions =
      st.transactions ++ assignIds gen 0 (parseCSVData csv now).1 := rfl
  have hcat : (importCSV csv now gen st).1.categories =
      st.categories ++ (parseCSVData csv now).2.filter
        (fun c => c.id ∉ st.categories.map (fun c2 => c2.id)) := rfl
  refine ⟨?_, ?_, ?_, ?_, ?_, ?_, ?_, rfl, rfl⟩
  · intro t ht
    rw [htx]
    exact List.mem_append_left _ ht
  · rw [htx, List.take_left]
  · rw [htx, List.length_append, assignIds_length]
  · rw [htx, List.drop_left, assignIds_toDraft]
  · rw [htx, List.drop_left, assignIds_ids]
    exact List.map_congr_left (fun i _ => congrArg gen (Nat.zero_add i))
  · intro c hc
    rw [hcat]
    exact List.mem_append_left _ hc
  · intro c hc
    rw [hcat] at hc
    rcases List.mem_append.mp hc with h | h
    · exact Or.inl h
    · obtain ⟨hmem, hdec⟩ := List.mem_filter.mp h
      exact Or.inr ⟨hmem, of_decide_eq_true hdec⟩

/-- C7 witness. -/
theorem C7_importCSV_frame_witness :
    (⟨"t0", 7, "lunch", ⟨2024, 3, 2, 0⟩, "food", TransactionType.expense⟩ : Transaction) ∈
      (importCSV exCsvC10 exNow exGen exSt3).1.transactions ∧
    (⟨"food", "Food", "🍔", TransactionType.expense⟩ : Category) ∈
      (importCSV exCsvC10 exNow exGen exSt3).1.categories :=
  ⟨(C7_importCSV_frame exCsvC10 exNow exGen exSt3).1 _ (by decide),
   (C7_importCSV_frame exCsvC10 exNow exGen exSt3).2.2.2.2.2.1 _ (by decide)⟩

theorem mem_assignIds_ids (gen : Nat → String) :
    ∀ (ds : List TransactionDraft) (k : Nat) (x : String),
      x ∈ (assignIds gen k ds).map (fun t => t.id) → ∃ i, k ≤ i ∧ x = gen i := by
  intro ds
  induction ds with
  | nil => intro k x h; cases h
  | cons d rest ih =>
    intro k x h
    rcases List.mem_cons.mp h with rfl | h2
    · exact ⟨k, Nat.le_refl k, rfl⟩
    · obtain ⟨i, hi, hx⟩ := ih (k + 1) x h2
      exact ⟨i, Nat.le_of_succ_le hi, hx⟩

theorem nodup_assignIds_ids (gen : Nat → String) (hinj : Function.Injective gen) :
    ∀ (ds : List TransactionDraft) (k : Nat),
      ((assignIds gen k ds).map (fun t => t.id)).Nodup := by
  intro ds
  induction ds with
  | nil => intro k; simp [assignIds]
  | cons d rest ih =>
    intro k
    simp only [assignIds, List.map_cons, List.nodup_cons, TransactionDraft.withId]
    refine ⟨fun hmem => ?_, ih (k + 1)⟩
    obtain ⟨i, hi, hx⟩ := mem_assignIds_ids gen rest (k + 1) (gen k) hmem
    have : k = i := hinj hx
    omega

/-- C9 (counterexample to the claim as stated).  `generateId` draws from
`Math.random` and the store never checks for collisions, so nothing
guarantees distinct ids: if the generator returns the same string twice
(which `Math.random` may), two `addTransaction` calls produce a state
whose transaction ids are not pairwise distinct. -/
theorem C9_duplicate_ids_possible :
    ¬ (((addTransaction exDraft "a" (addTransaction exDraft "a" exSt0)).transactions.map
        (fun t => t.id)).Nodup) := by
  decide

/-- C9 (amended).  Ids are pairwise distinct in every state reachable by
`addTransaction` and `importCSV` *provided the id generator supplies fresh
values*: if the existing ids are pairwise distinct and the supplied id (for
`addTransaction`) or the injective id supply (for `importCSV`) avoids all
existing ids, the resulting transaction lists again have pairwise distinct
ids.  The code itself enforces no such freshness. -/
theorem C9_ids_nodup_of_fresh :
    (∀ (st : StoreState) (d : TransactionDraft) (newId : String),
      (st.transactions.map (fun t => t.id)).Nodup →
      newId ∉ st.transactions.map (fun t => t.id) →
      ((addTransaction d newId st).transactions.map (fun t => t.id)).Nodup) ∧
    (∀ (st : StoreState) (csv : String) (now : CalDate) (gen : Nat → String),
      (st.transactions.map (fun t => t.id)).Nodup →
      Function.Injective gen →
      (∀ i, gen i ∉ st.transactions.map (fun t => t.id)) →
      ((importCSV csv now gen st).1.transactions.map (fun t => t.id)).Nodup) := by
  constructor
  · intro st d newId hnd hfresh
    have h : (addTransaction d newId st).transactions = st.transactions ++ [d.withId newId] := rfl
    rw [h, List.map_append, List.nodup_append]
    refine ⟨hnd, by simp, ?_⟩
    intro x hx
    simp only [List.map_cons, List.map_nil, List.mem_singleton, TransactionDraft.withId]
    intro hx2
    rw [hx2] at hx
    exact hfresh hx
  · intro st csv now gen hnd hinj hfresh
    have h : (importCSV csv now gen st).1.transactions =
        st.transactions ++ assignIds gen 0 (parseCSVData csv now).1 := rfl
    rw [h, List.map_append, List.nodup_append]
    refine ⟨hnd, nodup_assignIds_ids gen hinj _ 0, ?_⟩
    intro x hx hx2
    obtain ⟨i, _, rfl⟩ := mem_assignIds_ids gen _ 0 x hx2
    exact hfresh i hx

/-- C9 witness. -/
theorem C9_ids_nodup_of_fresh_witness :
    ((addTransaction exDraft "b" exSt3).transactions.map (fun t => t.id)).Nodup ∧
    ((importCSV exCsvC10 exNow exGen exSt3).1.transactions.map (fun t => t.id)).Nodup :=
  ⟨C9_ids_nodup_of_fresh.1 exSt3 exDraft "b" (by decide) (by decide),
   C9_ids_nodup_of_fresh.2 exSt3 exCsvC10 exNow exGen (by decide)
     (fun a b hab => by
        have h2 : 't' :: List.replicate a 'i' = 't' :: List.replicate b 'i' := by
          simpa [exGen] using congrArg String.data hab
        have h3 := congrArg List.length h2
        simpa using h3)
     (fun i hmem => by
        have h1 : String.mk ('t' :: List.replicate i 'i') = "t0" := by
          simpa [exGen, exSt3] using hmem
        have hd : 't' :: List.replicate i 'i' = ['t', '0'] := congrArg String.data h1
        have h2 : List.replicate i 'i' = ['0'] := by simpa using hd
        cases i with
        | zero => simp [List.replicate] at h2
        | succ n => simp [List.replicate] at h2)⟩

theorem processAllLines_cons (now : CalDate) (l : String) (rest : List String) (ctx : RowCtx) :
    processAllLines now (l :: rest) ctx =
      ((processLine now ctx l).1 :: (processAllLines now rest (processLine now ctx l).2).1,
       (processAllLines now rest (processLine now ctx l).2).2) := rfl

theorem processLine_ctx_now_indep (now now2 : CalDate) (ctx : RowCtx) (line : String) :
    (processLine now ctx line).2 = (processLine now2 ctx line).2 := by
  cases h : rowDate line with
  | error e => simp [processLine, h]
  | ok d => simp [processLine, h, processRowOk]

theorem processAllLines_ctx_now_indep (now now2 : CalDate) :
    ∀ (lines : List String) (ctx : RowCtx),
      (processAllLines now lines ctx).2 = (processAllLines now2 lines ctx).2 := by
  intro lines
  induction lines with
  | nil => intro ctx; rfl
  | cons l rest ih =>
    intro ctx
    rw [processAllLines_cons, processAllLines_cons]
    show (processAllLines now rest (processLine now ctx l).2).2 = _
    rw [processLine_ctx_now_indep now now2 ctx l]
    exact ih _

theorem parseCSV_newCats_now_indep (csv : String) (now now2 : CalDate) :
    (parseCSVData csv now).2 = (parseCSVData csv now2).2 := by
  show (processAllLines now (csvDataLines csv) ⟨[], []⟩).2.newCats = _
  rw [processAllLines_ctx_now_indep now now2]
  rfl

/-- The invariant of the category bookkeeping: the seen-id set is exactly
the ids of the synthesized categories and contains no duplicates. -/
def ctxInv (ctx : RowCtx) : Prop :=
  ctx.seen = ctx.newCats.map (fun c => c.id) ∧ ctx.seen.Nodup

theorem ctxInv_processLine (now : CalDate) (ctx : RowCtx) (line : String)
    (h : ctxInv ctx) : ctxInv (processLine now ctx line).2 := by
  cases hr : rowDate line with
  | error e => simpa [processLine, hr] using h
  | ok d =>
    have hp : (processLine now ctx line).2 = rowNewCtx ctx line := by
      simp [processLine, hr, processRowOk]
    rw [hp]
    unfold rowNewCtx
    by_cases hc : rowCategoryDerived line ≠ "" ∧ rowCategoryDerived line ∉ ctx.seen
    · rw [if_pos hc]
      refine ⟨?_, ?_⟩
      · show ctx.seen ++ [rowCategoryDerived line] = _
        rw [h.1]
        simp
      · show (ctx.seen ++ [rowCategoryDerived line]).Nodup
        simp [List.nodup_append, h.2, hc.2]
    · rw [if_neg hc]
      exact h

theorem ctxInv_processAllLines (now : CalDate) :
    ∀ (lines : List String) (ctx : RowCtx),
      ctxInv ctx → ctxInv (processAllLines now lines ctx).2 := by
  intro lines
  induction lines with
  | nil => intro ctx h; exact h
  | cons l rest ih =>
    intro ctx h
    rw [processAllLines_cons]
    exact ih _ (ctxInv_processLine now ctx l h)

theorem newCats_ids_nodup (csv : String) (now : CalDate) :
    ((parseCSVData csv now).2.map (fun c => c.id)).Nodup := by
  have h := ctxInv_processAllLines now (csvDataLines csv) ⟨[], []⟩ ⟨rfl, List.nodup_nil⟩
  have h1 := h.1
  have h2 := h.2
  rw [h1] at h2
  exact h2

set_option maxHeartbeats 1000000 in
/-- C6.  (i) For every successfully parsed row, the transaction's category
id is the label lower-cased with whitespace runs replaced by underscores
(`rowCategoryDerived`), falling back to the default id (`other_income` for
income rows, `others` for expense rows) when the label is empty — in which
case no category is synthesized; a category (name = original label, icon
from the fixed lookup keyed on the id with a generic fallback) is
synthesized exactly when the derived id is nonempty and was not seen
earlier in the same import.  (ii) Every category in the store after
`importCSV` was either already there or carries an id that collides with
no pre-existing id.  (iii) Importing the same CSV again later adds no
category: the existing ids win at merge time. -/
theorem C6_category_synthesis :
    (∀ now ctx line dt, rowDate line = Except.ok dt →
      (processLine now ctx line).1.categoryId =
        (if rowCategoryDerived line = "" then defaultCategoryId (rowType line)
         else rowCategoryDerived line) ∧
      (processLine now ctx line).2.newCats = ctx.newCats ++
        (if rowCategoryDerived line ≠ "" ∧ rowCategoryDerived line ∉ ctx.seen then
           [⟨rowCategoryDerived line, (rowFields line).getD 2 "",
             getCategoryIcon (rowCategoryDerived line), rowType line⟩]
         else [])) ∧
    (∀ csv now gen st c, c ∈ (importCSV csv now gen st).1.categories →
      c ∈ st.categories ∨ c.id ∉ st.categories.map (fun c2 => c2.id)) ∧
    (∀ csv now now2 gen gen2 st,
      (importCSV csv now2 gen2 (importCSV csv now gen st).1).1.categories =
        (importCSV csv now gen st).1.categories) := by
  refine ⟨?_, ?_, ?_⟩
  · intro now ctx line dt h
    have hp : processLine now ctx line = processRowOk ctx line dt := by
      simp [processLine, h]
    rw [hp]
    constructor
    · show rowCategoryId line = _
      unfold rowCategoryId
      rfl
    show (rowNewCtx ctx line).newCats = _
    unfold rowNewCtx
    by_cases hc : rowCategoryDerived line ≠ "" ∧ rowCategoryDerived line ∉ ctx.seen
    · rw [if_pos hc, if_pos hc]
    · rw [if_neg hc, if_neg hc, List.append_nil]
  · intro csv now gen st c hc
    have hcat : (importCSV csv now gen st).1.categories =
        st.categories ++ (parseCSVData csv now).2.filter
          (fun c2 => c2.id ∉ st.categories.map (fun c3 => c3.id)) := rfl
    rw [hcat] at hc
    rcases List.mem_append.mp hc with h | h
    · exact Or.inl h
    · obtain ⟨_, hdec⟩ := List.mem_filter.mp h
      exact Or.inr (of_decide_eq_true hdec)
  · intro csv now now2 gen gen2 st
    have hcat1 : (importCSV csv now gen st).1.categories =
        st.categories ++ (parseCSVData csv now).2.filter
          (fun c2 => c2.id ∉ st.categories.map (fun c3 => c3.id)) := rfl
    have hcat2 : (importCSV csv now2 gen2 (importCSV csv now gen st).1).1.categories =
        (importCSV csv now gen st).1.categories ++ (parseCSVData csv now2).2.filter
          (fun c2 => c2.id ∉ (importCSV csv now gen st).1.categories.map (fun c3 => c3.id)) := rfl
    rw [hcat2, parseCSV_newCats_now_indep csv now2 now]
    have hnil : (parseCSVData csv now).2.filter
        (fun c2 => c2.id ∉ (importCSV csv now gen st).1.categories.map (fun c3 => c3.id)) = [] := by
      apply List.filter_eq_nil_iff.mpr
      intro c hcmem hdec
      have hnotin : c.id ∉ (importCSV csv now gen st).1.categories.map (fun c3 => c3.id) :=
        of_decide_eq_true hdec
      apply hnotin
      rw [hcat1, List.map_append, List.mem_append]
      by_cases hin : c.id ∈ st.categories.map (fun c3 => c3.id)
      · exact Or.inl hin
      · right
        apply List.mem_map.mpr
        refine ⟨c, ?_, rfl⟩
        exact List.mem_filter.mpr ⟨hcmem, decide_eq_true hin⟩
    rw [hnil, List.append_nil]

/-- C6 witness. -/
theorem C6_category_synthesis_witness :
    (processLine exNow ⟨[], []⟩ "2024-3-15,Expense,Self Care,,10").2.newCats =
      [⟨"self_care", "Self Care", "💆", TransactionType.expense⟩] ∧
    (importCSV exCsvC10 exNow exGen (importCSV exCsvC10 exNow exGen exSt3).1).1.categories =
      (importCSV exCsvC10 exNow exGen exSt3).1.categories := by
  constructor
  · have h := (C6_category_synthesis.1 exNow ⟨[], []⟩ "2024-3-15,Expense,Self Care,,10"
      ⟨2024, 3, 15, 0⟩ (by rfl)).2
    rw [h]
    decide
  · exact C6_category_synthesis.2.2 exCsvC10 exNow exNow exGen exGen exSt3

theorem foldl_add_snd (l : List (String × ℚ)) :
    ∀ x : ℚ, l.foldl (fun s p => s + p.2) x = x + (l.map Prod.snd).sum := by
  induction l with
  | nil => intro x; simp
  | cons p rest ih =>
    intro x
    rw [List.foldl_cons, ih (x + p.2)]
    simp [add_assoc]

theorem sumValues_eq_sum (l : List (String × ℚ)) :
    sumValues l = (l.map Prod.snd).sum := by
  rw [sumValues, foldl_add_snd l 0, zero_add]

theorem foldl_add_amount (l : List Transaction) :
    ∀ x : ℚ, l.foldl (fun s t => s + t.amount) x = x + (l.map (fun t => t.amount)).sum := by
  induction l with
  | nil => intro x; simp
  | cons t rest ih =>
    intro x
    rw [List.foldl_cons, ih (x + t.amount)]
    simp [add_assoc]

theorem sumAmounts_eq_sum (l : List Transaction) :
    sumAmounts l = (l.map (fun t => t.amount)).sum := by
  rw [sumAmounts, foldl_add_amount l 0, zero_add]

theorem sumValues_bumpTotal (acc : List (String × ℚ)) (c : String) (a : ℚ) :
    sumValues (bumpTotal acc c a) = sumValues acc + a := by
  rw [sumValues_eq_sum, sumValues_eq_sum]
  induction acc with
  | nil => simp [bumpTotal]
  | cons p rest ih =>
    rcases p with ⟨c1, v⟩
    by_cases hc : c1 = c
    · simp [bumpTotal, hc]
      ring
    · simp only [bumpTotal, if_neg hc, List.map_cons, List.sum_cons, ih]
      ring

theorem sumValues_categoryTotals_fold (txs : List Transaction) :
    ∀ acc : List (String × ℚ),
      sumValues (txs.foldl (fun a t => bumpTotal a t.categoryId t.amount) acc) =
        sumValues acc + (txs.map (fun t => t.amount)).sum := by
  induction txs with
  | nil => intro acc; simp
  | cons t rest ih =>
    intro acc
    rw [List.foldl_cons, ih (bumpTotal acc t.categoryId t.amount), sumValues_bumpTotal]
    simp [add_assoc]

theorem sumValues_categoryTotals (l : List Transaction) (k : TransactionType) :
    sumValues (categoryTotals l k) =
      ((l.filter (fun t => t.type = k)).map (fun t => t.amount)).sum := by
  rw [categoryTotals, sumValues_categoryTotals_fold]
  simp [sumValues]

/-- The month total used by `ExpenseChart` for a view type equals the sum
of the per-category totals for that type. -/
theorem breakdown_total_eq (txs : List Transaction) (m : Month) (k : TransactionType) :
    breakdownTotal (calculateMonthData txs m) k =
      sumValues (categoryTotals (calculateMonthData txs m).transactions k) := by
  cases k with
  | income =>
    show sumAmounts _ = _
    rw [sumAmounts_eq_sum, sumValues_categoryTotals]
    rfl
  | expense =>
    show sumAmounts _ = _
    rw [sumAmounts_eq_sum, sumValues_categoryTotals]
    rfl

/-- C8.  With amounts non-negative (the data-model invariant), each
category's percentage is its total divided by the sum of the per-category
totals for that kind, times 100 — and 0 for every category when that sum
is 0; consequently the percentages sum to exactly 100 whenever the kind's
total is nonzero, and to 0 when the total is zero.  (Rational arithmetic
stands in for floating point; the sum is exact.) -/
theorem C8_breakdown_percentages (txs : List Transaction) (m : Month) (k : TransactionType)
    (hpos : ∀ t ∈ txs, 0 ≤ t.amount) :
    (∀ p ∈ (categoryBreakdown (calculateMonthData txs m) k).2,
      ∃ a, (p.1, a) ∈ (categoryBreakdown (calculateMonthData txs m) k).1 ∧
        p.2 = (if sumValues (categoryBreakdown (calculateMonthData txs m) k).1 = 0 then 0
               else a / sumValues (categoryBreakdown (calculateMonthData txs m) k).1 * 100)) ∧
    (sumValues (categoryBreakdown (calculateMonthData txs m) k).1 ≠ 0 →
      sumValues (categoryBreakdown (calculateMonthData txs m) k).2 = 100) ∧
    (sumValues (categoryBreakdown (calculateMonthData txs m) k).1 = 0 →
      ∀ p ∈ (categoryBreakdown (calculateMonthData txs m) k).2, p.2 = 0) := by
  set md := calculateMonthData txs m with hmd
  have htotals : (categoryBreakdown md k).1 = categoryTotals md.transactions k := rfl
  have hpercs : (categoryBreakdown md k).2 =
      categoryPercentages (categoryBreakdown md k).1 (breakdownTotal md k) := rfl
  have hS : breakdownTotal md k = sumValues (categoryBreakdown md k).1 := by
    rw [htotals, hmd]
    exact breakdown_total_eq txs m k
  have hposS : 0 ≤ sumValues (categoryBreakdown md k).1 := by
    rw [htotals, sumValues_categoryTotals]
    apply List.sum_nonneg
    intro x hx
    rcases List.mem_map.mp hx with ⟨t, ht, rfl⟩
    have ht2 : t ∈ md.transactions := (List.mem_filter.mp ht).1
    have ht3 : t ∈ txs := by
      have he : md.transactions = txs.filter (fun t => inMonthRange m t.date) := rfl
      rw [he] at ht2
      exact (List.mem_filter.mp ht2).1
    exact hpos t ht3
  refine ⟨?_, ?_, ?_⟩
  · intro p hp
    rw [hpercs, categoryPercentages] at hp
    rcases List.mem_map.mp hp with ⟨q, hq, rfl⟩
    refine ⟨q.2, by simpa using hq, ?_⟩
    by_cases hz : sumValues (categoryBreakdown md k).1 = 0
    · rw [if_pos hz]
      have hnlt : ¬ (0 < breakdownTotal md k) := by
        rw [hS, hz]
        exact lt_irrefl 0
      simp [hnlt]
    · rw [if_neg hz]
      have hlt : 0 < breakdownTotal md k := by
        rw [hS]
        exact lt_of_le_of_ne hposS (Ne.symm hz)
      simp only [if_pos hlt]
      rw [hS]
  · intro hz
    have hlt : 0 < breakdownTotal md k := by
      rw [hS]
      exact lt_of_le_of_ne hposS (Ne.symm hz)
    rw [hpercs, categoryPercentages, sumValues_eq_sum, List.map_map]
    have hmap : ((categoryBreakdown md k).1.map
        (Prod.snd ∘ fun p : String × ℚ =>
          (p.1, if 0 < breakdownTotal md k then p.2 / breakdownTotal md k * 100 else 0))) =
        (categoryBreakdown md k).1.map
          (fun p => p.2 * (100 / sumValues (categoryBreakdown md k).1)) := by
      refine List.map_congr_left (fun p _ => ?_)
      show (if 0 < breakdownTotal md k then p.2 / breakdownTotal md k * 100 else 0) = _
      rw [if_pos hlt, hS]
      ring
    rw [hmap, List.sum_map_mul_right, ← sumValues_eq_sum]
    field_simp
  · intro hz p hp
    rw [hpercs, categoryPercentages] at hp
    rcases List.mem_map.mp hp with ⟨q, hq, rfl⟩
    have hnlt : ¬ (0 < breakdownTotal md k) := by
      rw [hS, hz]
      exact lt_irrefl 0
    simp [hnlt]

unseal Rat.mul Rat.add Rat.sub Rat.inv in
/-- C8 witness. -/
theorem C8_breakdown_percentages_witness :
    sumValues (categoryBreakdown (calculateMonthData exSt3.transactions ⟨2024, 3⟩)
      TransactionType.expense).2 = 100 :=
  (C8_breakdown_percentages exSt3.transactions ⟨2024, 3⟩ TransactionType.expense
    (by decide)).2.1 (by decide)

/-- C10.  The summary message of `importCSV` counts the categories
synthesized during parsing (`newCategories.length`), not the categories
actually added after the id-collision merge: importing a CSV whose only
category label `Food` collides with an existing category id reports
"1 new categories" while the store's category list is unchanged. -/
theorem C10_category_count_overreported :
    (importCSV exCsvC10 exNow exGen exSt3).2.message =
      "Imported 1 transactions and 1 new categories." ∧
    (importCSV exCsvC10 exNow exGen exSt3).1.categories = exSt3.categories ∧
    (parseCSVData exCsvC10 exNow).2.length = 1 := by
  refine ⟨?_, ?_, ?_⟩ <;> decide
